import Mathlib

/-!
Verification development for the stratonode GNSS sender.

The definitions below are a shallow embedding of the Python sources:

* `GNSSReader._process_data`, `_extract_ubx_message`, `_validate_ubx_checksum`,
  `_validate_nmea_checksum`, `get_buffered_data`, `get_buffered_data_with_raw_ubx`
  from `sender/gnss_reader.py`;
* `FileLogger._compress_and_checksum` from `sender/gnss_combined_service.py` and
  `atomic_compress_and_checksum` from `sender/gnss_file_logger.py`;
* the `sequence_number` handling of `NetworkSender.send_batch` from
  `sender/gnss_combined_service.py`.

Bytes and character code points are modelled as natural numbers; Python strings
and byte strings become lists of naturals.
-/

namespace Stratonode

/-- Parser modes of `GNSSReader.parsing_state`: the string constants
`'SEARCHING'` and `'IN_NMEA'` (no other value is ever assigned). -/
inductive Mode where
  | searching
  | inNmea
deriving DecidableEq, Repr

/-- Parser scratch state and output buffers of a `GNSSReader` instance. -/
structure RState where
  mode : Mode
  nmeaLineBuffer : List Nat
  ubxPartialBuffer : List Nat
  ubxErrorCount : Nat
  nmeaBuffer : List (List Nat)
  ubxBuffer : List (List Nat)
deriving DecidableEq, Repr

/-- `GNSSReader.UBX_SYNC_CHAR_1 = 0xB5`. -/
def UBX_SYNC_CHAR_1 : Nat := 0xB5

/-- `GNSSReader.UBX_SYNC_CHAR_2 = 0x62`. -/
def UBX_SYNC_CHAR_2 : Nat := 0x62

/-- `self.max_nmea_line_length = 512`. -/
def maxNmeaLineLength : Nat := 512

/-- `self.max_ubx_message_length = 2048`. -/
def maxUbxMessageLength : Nat := 2048

/-- `self.max_ubx_errors_before_resync = 5`. -/
def maxUbxErrorsBeforeResync : Nat := 5

/-- One iteration of the checksum loop in `_validate_ubx_checksum`:
`ck_a = (ck_a + byte) & 0xFF; ck_b = (ck_b + ck_a) & 0xFF`. -/
def ubxCkStep (p : Nat × Nat) (b : Nat) : Nat × Nat :=
  let a := (p.1 + b) % 256
  (a, (p.2 + a) % 256)

/-- The running-sum checksum pair computed over a byte list. -/
def ubxChecksum (body : List Nat) : Nat × Nat :=
  body.foldl ubxCkStep (0, 0)

/-- `GNSSReader._validate_ubx_checksum`: messages shorter than 8 bytes are
invalid; otherwise the checksum is computed over `message[2:-2]` and compared
with the final two bytes. -/
def validateUbxChecksum (message : List Nat) : Bool :=
  if message.length < 8 then false
  else
    let body := (message.drop 2).dropLast.dropLast
    let ck := ubxChecksum body
    decide (message.getD (message.length - 2) 0 = ck.1 ∧
      message.getD (message.length - 1) 0 = ck.2)

/-- `GNSSReader._extract_ubx_message`: `None` when fewer than 8 bytes are
present, the declared length exceeds the bound, the full
`6 + length + 2`-byte frame is not yet staged, or the trailing checksum pair
fails; otherwise the complete message. -/
def extractUbxMessage (data : List Nat) : Option (List Nat) :=
  if data.length < 8 then none
  else
    let length := Nat.lor (data.getD 4 0) (Nat.shiftLeft (data.getD 5 0) 8)
    if maxUbxMessageLength < length then none
    else
      let totalSize := 6 + length + 2
      if data.length < totalSize then none
      else
        let message := data.take totalSize
        if validateUbxChecksum message then some message else none

/-- Python whitespace characters in the ASCII range, as used by `str.strip()`
and by `int()` argument stripping: space, TAB through CR, and FS through US. -/
def isPySpace (b : Nat) : Bool :=
  b == 32 || (9 ≤ b && b ≤ 13) || (28 ≤ b && b ≤ 31)

/-- Python `str.strip()` on a code-point list. -/
def pyStrip (l : List Nat) : List Nat :=
  ((l.dropWhile isPySpace).reverse.dropWhile isPySpace).reverse

/-- `bytes.decode('ascii')`: succeeds exactly when every byte is below 128,
otherwise `UnicodeDecodeError` (modelled as `none`). -/
def decodeAscii (l : List Nat) : Option (List Nat) :=
  if l.all (· < 128) then some l else none

/-- Python `str.split('*')` on a code-point list (42 is `'*'`). -/
def splitStar : List Nat → List (List Nat)
  | [] => [[]]
  | b :: rest =>
    if b = 42 then [] :: splitStar rest
    else
      match splitStar rest with
      | [] => [[b]]
      | p :: ps => (b :: p) :: ps

/-- Value of a hexadecimal digit code point. -/
def hexDigitVal (c : Nat) : Option Nat :=
  if 48 ≤ c ∧ c ≤ 57 then some (c - 48)
  else if 97 ≤ c ∧ c ≤ 102 then some (c - 87)
  else if 65 ≤ c ∧ c ≤ 70 then some (c - 55)
  else none

/-- Python `int(s, 16)` restricted to the at-most-two-character strings that
`_validate_nmea_checksum` can pass (`checksum[:2]`): surrounding whitespace is
stripped, a lone sign may precede a single digit, and anything else that is not
one or two hex digits (for example a bare `0x`, an underscore, or the empty
string) raises `ValueError`, modelled as `none`. -/
def pyIntHex (l : List Nat) : Option Int :=
  match pyStrip l with
  | [] => none
  | [c] => (hexDigitVal c).map (fun v => (v : Int))
  | [c₁, c₂] =>
    if c₁ = 43 then (hexDigitVal c₂).map (fun v => (v : Int))
    else if c₁ = 45 then (hexDigitVal c₂).map (fun v => -(v : Int))
    else
      match hexDigitVal c₁, hexDigitVal c₂ with
      | some v₁, some v₂ => some ((16 * v₁ + v₂ : Nat) : Int)
      | _, _ => none
  | _ => none

/-- `GNSSReader._validate_nmea_checksum`: a line without `'*'` is valid;
otherwise `sentence, checksum = nmea_line.split('*')` succeeds only when the
split yields exactly two parts (any other arity raises, caught as `False`);
the XOR over the part before `'*'` after `lstrip('$')` is compared with
`int(checksum[:2], 16)`. -/
def validateNmeaChecksum (line : List Nat) : Bool :=
  if 42 ∉ line then true
  else
    match splitStar line with
    | [sentence, checksum] =>
      let sent := sentence.dropWhile (· = 36)
      let calcCk := sent.foldl Nat.xor 0
      match pyIntHex (checksum.take 2) with
      | some v => decide ((calcCk : Int) = v)
      | none => false
    | _ => false

/-- The body of the `if byte == ord('\n')` branch of the `IN_NMEA` state of
`_process_data`: decode the accumulated line as ASCII, strip it, and append it
to the NMEA buffer when it starts with `'$'`, is longer than 5 characters and
passes checksum validation; in every case clear the line buffer and return to
`SEARCHING`. -/
def finishNmeaLine (s : RState) (buf : List Nat) : RState :=
  match decodeAscii buf with
  | some chars =>
    let line := pyStrip chars
    if line.head? = some 36 ∧ 5 < line.length ∧ validateNmeaChecksum line then
      { s with nmeaBuffer := s.nmeaBuffer ++ [line], nmeaLineBuffer := [],
               mode := .searching }
    else
      { s with nmeaLineBuffer := [], mode := .searching }
  | none => { s with nmeaLineBuffer := [], mode := .searching }

/-- Fuel ordering rank of a parser mode, used to bound the loop of
`_process_data`: the only iteration that does not advance `i` (the UBX sync
pair appearing inside an NMEA line) moves from `IN_NMEA` to `SEARCHING`. -/
def modeRank : Mode → Nat
  | .searching => 0
  | .inNmea => 1

/-- The `while i < len(data)` loop of `GNSSReader._process_data`, expressed on
the suffix `rest = data[i:]`. `fuel` only bounds the number of iterations:
`2 * rest.length + modeRank mode` of them always suffice
(`procLoop_fuel_stable`), and `processData` supplies more than that. The
`ubxPartialBuffer` field is `[]` throughout the loop in the source (cleared on
entry and after every staged decision except the early `break`), so it is set
only at the two exit points. -/
def procLoop : Nat → List Nat → RState → RState
  | 0, rest, s => { s with ubxPartialBuffer := rest }
  | _ + 1, [], s => { s with ubxPartialBuffer := [] }
  | fuel + 1, b :: rest, s =>
    match s.mode with
    | .searching =>
      if b = UBX_SYNC_CHAR_1 ∧ rest.head? = some UBX_SYNC_CHAR_2 then
        -- found UBX start: stage `data[i:]`
        let staged := b :: rest
        if 6 ≤ staged.length ∧
            maxUbxMessageLength <
              Nat.lor (staged.getD 4 0) (Nat.shiftLeft (staged.getD 5 0) 8) then
          -- obviously invalid length: count the error, clear the staged bytes,
          -- skip just the two sync bytes and keep searching
          let ec := s.ubxErrorCount + 1
          let ec' := if maxUbxErrorsBeforeResync ≤ ec then 0 else ec
          procLoop fuel (staged.drop 2) { s with ubxErrorCount := ec' }
        else
          match extractUbxMessage staged with
          | some msg =>
            -- complete message: buffer it, reset the error count, advance
            procLoop fuel (staged.drop msg.length)
              { s with ubxBuffer := s.ubxBuffer ++ [msg], ubxErrorCount := 0 }
          | none =>
            -- incomplete: save the remainder for the next read and stop
            { s with ubxPartialBuffer := staged }
      else if b = 36 then
        procLoop fuel rest { s with mode := .inNmea, nmeaLineBuffer := [b] }
      else
        procLoop fuel rest s
    | .inNmea =>
      let buf := s.nmeaLineBuffer ++ [b]
      if b = 10 then
        procLoop fuel rest (finishNmeaLine s buf)
      else if maxNmeaLineLength < buf.length then
        procLoop fuel rest { s with nmeaLineBuffer := [], mode := .searching }
      else if b = UBX_SYNC_CHAR_1 ∧ rest.head? = some UBX_SYNC_CHAR_2 then
        -- corruption: drop the partial line, reprocess the sync bytes
        procLoop fuel (b :: rest) { s with nmeaLineBuffer := [], mode := .searching }
      else
        procLoop fuel rest { s with nmeaLineBuffer := buf }

/-- `GNSSReader._process_data`: prepend and clear the pending partial buffer,
then run the state machine over the bytes. -/
def processData (data : List Nat) (s : RState) : RState :=
  let full := s.ubxPartialBuffer ++ data
  procLoop (2 * full.length + 2) full { s with ubxPartialBuffer := [] }

/-- The parser and buffer state of a freshly constructed `GNSSReader`. -/
def initState : RState :=
  { mode := .searching, nmeaLineBuffer := [], ubxPartialBuffer := [],
    ubxErrorCount := 0, nmeaBuffer := [], ubxBuffer := [] }

/-- Consecutive `_process_data` calls on a list of chunks. -/
def processChunks (chunks : List (List Nat)) (s : RState) : RState :=
  chunks.foldl (fun st c => processData c st) s

/-- Code point of the standard base64 alphabet at an index below 64. -/
def b64Char (n : Nat) : Nat :=
  if n < 26 then 65 + n
  else if n < 52 then 97 + (n - 26)
  else if n < 62 then 48 + (n - 52)
  else if n = 62 then 43
  else 47

/-- `base64.b64encode` on a byte list, returned as a code-point list
(61 is the `'='` padding character). -/
def b64Encode : List Nat → List Nat
  | [] => []
  | [a] => [b64Char (a / 4), b64Char (a % 4 * 16), 61, 61]
  | [a, b] => [b64Char (a / 4), b64Char (a % 4 * 16 + b / 16), b64Char (b % 16 * 4), 61]
  | a :: b :: c :: rest =>
    b64Char (a / 4) :: b64Char (a % 4 * 16 + b / 16) ::
      b64Char (b % 16 * 4 + c / 64) :: b64Char (c % 64) :: b64Encode rest

/-- `GNSSReader.get_buffered_data`: under the buffer lock, copy the NMEA lines,
base64-encode each UBX message, clear both buffers, and return the copies. -/
def getBufferedData (s : RState) :
    (List (List Nat) × List (List Nat)) × RState :=
  ((s.nmeaBuffer, s.ubxBuffer.map b64Encode),
   { s with nmeaBuffer := [], ubxBuffer := [] })

/-- `GNSSReader.get_buffered_data_with_raw_ubx`: as `get_buffered_data` but the
raw UBX byte lists are returned as well, with the base64 list computed from the
same copy (no re-parsing). -/
def getBufferedDataWithRawUbx (s : RState) :
    (List (List Nat) × List (List Nat) × List (List Nat)) × RState :=
  ((s.nmeaBuffer, s.ubxBuffer.map b64Encode, s.ubxBuffer),
   { s with nmeaBuffer := [], ubxBuffer := [] })

/-- The on-disk paths the archival routine touches for one source file:
`src`, `src.zst.tmp`, `src.zst`, `src.zst.sha256.tmp`, `src.zst.sha256`.
`none` means the path does not exist; `some c` holds its (opaque) content. -/
structure FileState where
  src : Option Nat
  zstTmp : Option Nat
  zstFinal : Option Nat
  shaTmp : Option Nat
  shaFinal : Option Nat
deriving DecidableEq, Repr

/-- Success or failure of each fallible step of the archival routine:
whether the `zstd` binary exists (`FileNotFoundError` otherwise), and whether
the compression, `sha256sum`, sidecar write, the two `os.replace` renames and
the final `os.remove` succeed. -/
structure ArchiveEnv where
  zstdAvailable : Bool
  compressOk : Bool
  shaOk : Bool
  writeShaOk : Bool
  renameZstOk : Bool
  renameShaOk : Bool
  removeOk : Bool
deriving DecidableEq, Repr

/-- Step markers recorded by the archival model, in execution order. -/
inductive ArchiveEvent where
  | compressed
  | wroteSha
  | renamedZst
  | renamedSha
  | removedSrc
deriving DecidableEq, Repr

/-- The shared tail of both archival routines, entered once `zstd` ran
successfully: checksum the temporary artifact, write and fsync the sidecar
temp, rename both into place, and only then remove the source. A failing step
stops the sequence at the state reached so far (the combined service catches
the exception and logs it; the standalone logger lets it propagate — either
way nothing later runs). `compress` and `sha` are the opaque content
transformations of `zstd` and `sha256sum`. -/
def archiveTail (sha : Nat → Nat) (env : ArchiveEnv) (fs : FileState) (c : Nat) :
    FileState × List ArchiveEvent :=
  let fs₁ := { fs with zstTmp := some c }
  if !env.shaOk then (fs₁, [.compressed])
  else if !env.writeShaOk then (fs₁, [.compressed])
  else
    let fs₂ := { fs₁ with shaTmp := some (sha c) }
    if !env.renameZstOk then (fs₂, [.compressed, .wroteSha])
    else
      let fs₃ := { fs₂ with zstTmp := none, zstFinal := some c }
      if !env.renameShaOk then (fs₃, [.compressed, .wroteSha, .renamedZst])
      else
        let fs₄ := { fs₃ with shaTmp := none, shaFinal := some (sha c) }
        if !env.removeOk then
          (fs₄, [.compressed, .wroteSha, .renamedZst, .renamedSha])
        else
          ({ fs₄ with src := none },
           [.compressed, .wroteSha, .renamedZst, .renamedSha, .removedSrc])

/-- `FileLogger._compress_and_checksum` (gnss_combined_service.py): skip when
both final artifacts exist, skip when the source is gone, log and return when
`zstd` is missing, and otherwise run the compress/checksum/rename/remove
sequence with every exception caught and logged. -/
def compressAndChecksum (compress sha : Nat → Nat) (env : ArchiveEnv)
    (fs : FileState) : FileState × List ArchiveEvent :=
  if fs.zstFinal.isSome ∧ fs.shaFinal.isSome then (fs, [])
  else if fs.src.isNone then (fs, [])
  else if !env.zstdAvailable then (fs, [])
  else if !env.compressOk then (fs, [])
  else archiveTail sha env fs (compress (fs.src.getD 0))

/-- `atomic_compress_and_checksum` (gnss_file_logger.py): skip when both final
artifacts exist, return when `zstd` is missing; there is no explicit source
check, so a missing source makes the `zstd` call itself fail (its
`CalledProcessError` propagates); later step failures also propagate, again
leaving the state reached so far and never removing the source. -/
def atomicCompressAndChecksum (compress sha : Nat → Nat) (env : ArchiveEnv)
    (fs : FileState) : FileState × List ArchiveEvent :=
  if fs.zstFinal.isSome ∧ fs.shaFinal.isSome then (fs, [])
  else if !env.zstdAvailable then (fs, [])
  else if fs.src.isNone then (fs, [])
  else if !env.compressOk then (fs, [])
  else archiveTail sha env fs (compress (fs.src.getD 0))

/-- The only state of `NetworkSender` relevant to batch numbering. -/
structure SenderState where
  sequenceNumber : Nat
deriving DecidableEq, Repr

/-- `NetworkSender.__init__` sets `self.sequence_number = 0`; the counter is
not read from nor written to any persistent store. -/
def initSender : SenderState := { sequenceNumber := 0 }

/-- The sequence-number effect of `NetworkSender.send_batch`: the counter is
incremented before the batch is built, the batch carries the incremented
value, and the outcome of the POST (`postOk`) affects only the returned
success flag. -/
def sendBatch (st : SenderState) (postOk : Bool) : (Nat × Bool) × SenderState :=
  ((st.sequenceNumber + 1, postOk), { sequenceNumber := st.sequenceNumber + 1 })

/-- Sequence numbers of the batches produced by consecutive `send_batch`
calls, one per POST outcome in `outcomes`. -/
def batchSeqNums : List Bool → SenderState → List Nat
  | [], _ => []
  | ok :: rest, st =>
    let r := sendBatch st ok
    r.1.1 :: batchSeqNums rest r.2

/-- A successfully extracted UBX message passed checksum validation, is at
least 8 bytes long, and is an initial segment of the staged bytes. -/
theorem extractUbxMessage_eq_some {d msg : List Nat}
    (h : extractUbxMessage d = some msg) :
    validateUbxChecksum msg = true ∧ 8 ≤ msg.length ∧ msg.length ≤ d.length := by
  simp only [extractUbxMessage] at h
  split_ifs at h with h8 hlen htot hval
  · obtain rfl := Option.some.inj h
    refine ⟨hval, ?_, ?_⟩ <;> rw [List.length_take] <;> omega

/-- Completing an NMEA line always returns the parser to `SEARCHING`. -/
theorem finishNmeaLine_mode (s : RState) (buf : List Nat) :
    (finishNmeaLine s buf).mode = .searching := by
  unfold finishNmeaLine
  cases hda : decodeAscii buf
  · rfl
  · dsimp only
    split <;> rfl

/-- Completing an NMEA line does not touch the UBX output buffer. -/
theorem finishNmeaLine_ubxBuffer (s : RState) (buf : List Nat) :
    (finishNmeaLine s buf).ubxBuffer = s.ubxBuffer := by
  unfold finishNmeaLine
  cases hda : decodeAscii buf
  · rfl
  · dsimp only
    split <;> rfl

/-- Every record in the NMEA buffer after completing a line was either already
there or satisfies the emission guard of `_process_data`: it starts with `'$'`,
is longer than 5 characters and passes `_validate_nmea_checksum`. -/
theorem mem_finishNmeaLine_nmeaBuffer {s : RState} {buf m : List Nat}
    (h : m ∈ (finishNmeaLine s buf).nmeaBuffer) :
    m ∈ s.nmeaBuffer ∨
      (m.head? = some 36 ∧ 5 < m.length ∧ validateNmeaChecksum m = true) := by
  unfold finishNmeaLine at h
  cases hda : decodeAscii buf with
  | none => rw [hda] at h; exact Or.inl h
  | some chars =>
    rw [hda] at h
    dsimp only at h
    split at h
    · rename_i hguard
      dsimp only at h
      rcases List.mem_append.mp h with h' | h'
      · exact Or.inl h'
      · obtain rfl := List.mem_singleton.mp h'
        exact Or.inr hguard
    · exact Or.inl h

/-- The loop of `_process_data` computes the same result under any fuel that
exceeds `2 * rest.length + modeRank mode`: the fuel bound used by
`processData` is never the deciding factor. -/
theorem procLoop_fuel_stable :
    ∀ f₁ f₂ rest (s : RState),
      2 * rest.length + modeRank s.mode < f₁ →
      2 * rest.length + modeRank s.mode < f₂ →
      procLoop f₁ rest s = procLoop f₂ rest s := by
  intro f₁
  induction f₁ with
  | zero => exact fun f₂ rest s h₁ _ => absurd h₁ (Nat.not_lt_zero _)
  | succ a ih =>
    intro f₂ rest s h₁ h₂
    obtain ⟨b, rfl⟩ : ∃ b, f₂ = b + 1 := ⟨f₂ - 1, by omega⟩
    cases rest with
    | nil => rfl
    | cons x xs =>
      obtain ⟨mode, nl, up, ec, nb, ub⟩ := s
      cases mode with
      | searching =>
        simp only [modeRank, List.length_cons] at h₁ h₂
        by_cases hsync : x = UBX_SYNC_CHAR_1 ∧ xs.head? = some UBX_SYNC_CHAR_2
        · by_cases hbig : 6 ≤ (x :: xs).length ∧
              maxUbxMessageLength <
                Nat.lor ((x :: xs).getD 4 0) (Nat.shiftLeft ((x :: xs).getD 5 0) 8)
          · simp only [procLoop, if_pos hsync, if_pos hbig]
            apply ih
            · simp only [List.length_drop, List.length_cons, modeRank]; omega
            · simp only [List.length_drop, List.length_cons, modeRank]; omega
          · simp only [procLoop, if_pos hsync, if_neg hbig]
            rcases hx : extractUbxMessage (x :: xs) with _ | msg
            · simp only [hx]
            · obtain ⟨-, hm8, hmle⟩ := extractUbxMessage_eq_some hx
              simp only [List.length_cons] at hmle
              simp only [hx]
              apply ih
              · simp only [List.length_drop, List.length_cons, modeRank]; omega
              · simp only [List.length_drop, List.length_cons, modeRank]; omega
        · by_cases hd : x = 36
          · simp only [procLoop, if_neg hsync, if_pos hd]
            apply ih
            · simp only [modeRank]; omega
            · simp only [modeRank]; omega
          · simp only [procLoop, if_neg hsync, if_neg hd]
            apply ih
            · simp only [modeRank]; omega
            · simp only [modeRank]; omega
      | inNmea =>
        simp only [modeRank, List.length_cons] at h₁ h₂
        by_cases hnl : x = 10
        · simp only [procLoop, if_pos hnl]
          apply ih
          · rw [finishNmeaLine_mode]; simp only [modeRank]; omega
          · rw [finishNmeaLine_mode]; simp only [modeRank]; omega
        · by_cases hlong : maxNmeaLineLength < (nl ++ [x]).length
          · simp only [procLoop, if_neg hnl, if_pos hlong]
            apply ih
            · simp only [modeRank]; omega
            · simp only [modeRank]; omega
          · by_cases hsync : x = UBX_SYNC_CHAR_1 ∧ xs.head? = some UBX_SYNC_CHAR_2
            · simp only [procLoop, if_neg hnl, if_neg hlong, if_pos hsync]
              apply ih
              · simp only [modeRank, List.length_cons]; omega
              · simp only [modeRank, List.length_cons]; omega
            · simp only [procLoop, if_neg hnl, if_neg hlong, if_neg hsync]
              apply ih
              · simp only [modeRank]; omega
              · simp only [modeRank]; omega

/-- Every frame in the UBX buffer after running the loop was either already
there or was returned by `_extract_ubx_message`, hence checksum-valid. -/
theorem mem_ubxBuffer_procLoop :
    ∀ fuel rest (s : RState) m, m ∈ (procLoop fuel rest s).ubxBuffer →
      m ∈ s.ubxBuffer ∨ validateUbxChecksum m = true := by
  intro fuel
  induction fuel with
  | zero => exact fun rest s m h => Or.inl h
  | succ a ih =>
    intro rest s m h
    cases rest with
    | nil => exact Or.inl h
    | cons x xs =>
      obtain ⟨mode, nl, up, ec, nb, ub⟩ := s
      cases mode with
      | searching =>
        by_cases hsync : x = UBX_SYNC_CHAR_1 ∧ xs.head? = some UBX_SYNC_CHAR_2
        · by_cases hbig : 6 ≤ (x :: xs).length ∧
              maxUbxMessageLength <
                Nat.lor ((x :: xs).getD 4 0) (Nat.shiftLeft ((x :: xs).getD 5 0) 8)
          · simp only [procLoop, if_pos hsync, if_pos hbig] at h
            rcases ih _ _ m h with h' | h'
            · exact Or.inl h'
            · exact Or.inr h'
          · simp only [procLoop, if_pos hsync, if_neg hbig] at h
            rcases hx : extractUbxMessage (x :: xs) with _ | msg
            · simp only [hx] at h
              exact Or.inl h
            · simp only [hx] at h
              rcases ih _ _ m h with h' | h'
              · dsimp only at h'
                rcases List.mem_append.mp h' with h'' | h''
                · exact Or.inl h''
                · obtain rfl := List.mem_singleton.mp h''
                  exact Or.inr (extractUbxMessage_eq_some hx).1
              · exact Or.inr h'
        · by_cases hd : x = 36
          · simp only [procLoop, if_neg hsync, if_pos hd] at h
            rcases ih _ _ m h with h' | h'
            · exact Or.inl h'
            · exact Or.inr h'
          · simp only [procLoop, if_neg hsync, if_neg hd] at h
            rcases ih _ _ m h with h' | h'
            · exact Or.inl h'
            · exact Or.inr h'
      | inNmea =>
        by_cases hnl : x = 10
        · simp only [procLoop, if_pos hnl] at h
          rcases ih _ _ m h with h' | h'
          · rw [finishNmeaLine_ubxBuffer] at h'
            exact Or.inl h'
          · exact Or.inr h'
        · by_cases hlong : maxNmeaLineLength < (nl ++ [x]).length
          · simp only [procLoop, if_neg hnl, if_pos hlong] at h
            rcases ih _ _ m h with h' | h'
            · exact Or.inl h'
            · exact Or.inr h'
          · by_cases hsync : x = UBX_SYNC_CHAR_1 ∧ xs.head? = some UBX_SYNC_CHAR_2
            · simp only [procLoop, if_neg hnl, if_neg hlong, if_pos hsync] at h
              rcases ih _ _ m h with h' | h'
              · exact Or.inl h'
              · exact Or.inr h'
            · simp only [procLoop, if_neg hnl, if_neg hlong, if_neg hsync] at h
              rcases ih _ _ m h with h' | h'
              · exact Or.inl h'
              · exact Or.inr h'

/-- Every record in the NMEA buffer after running the loop was either already
there or satisfies the emission guard of `_process_data`. -/
theorem mem_nmeaBuffer_procLoop :
    ∀ fuel rest (s : RState) m, m ∈ (procLoop fuel rest s).nmeaBuffer →
      m ∈ s.nmeaBuffer ∨
        (m.head? = some 36 ∧ 5 < m.length ∧ validateNmeaChecksum m = true) := by
  intro fuel
  induction fuel with
  | zero => exact fun rest s m h => Or.inl h
  | succ a ih =>
    intro rest s m h
    cases rest with
    | nil => exact Or.inl h
    | cons x xs =>
      obtain ⟨mode, nl, up, ec, nb, ub⟩ := s
      cases mode with
      | searching =>
        by_cases hsync : x = UBX_SYNC_CHAR_1 ∧ xs.head? = some UBX_SYNC_CHAR_2
        · by_cases hbig : 6 ≤ (x :: xs).length ∧
              maxUbxMessageLength <
                Nat.lor ((x :: xs).getD 4 0) (Nat.shiftLeft ((x :: xs).getD 5 0) 8)
          · simp only [procLoop, if_pos hsync, if_pos hbig] at h
            rcases ih _ _ m h with h' | h'
            · exact Or.inl h'
            · exact Or.inr h'
          · simp only [procLoop, if_pos hsync, if_neg hbig] at h
            rcases hx : extractUbxMessage (x :: xs) with _ | msg
            · simp only [hx] at h
              exact Or.inl h
            · simp only [hx] at h
              rcases ih _ _ m h with h' | h'
              · exact Or.inl h'
              · exact Or.inr h'
        · by_cases hd : x = 36
          · simp only [procLoop, if_neg hsync, if_pos hd] at h
            rcases ih _ _ m h with h' | h'
            · exact Or.inl h'
            · exact Or.inr h'
          · simp only [procLoop, if_neg hsync, if_neg hd] at h
            rcases ih _ _ m h with h' | h'
            · exact Or.inl h'
            · exact Or.inr h'
      | inNmea =>
        by_cases hnl : x = 10
        · simp only [procLoop, if_pos hnl] at h
          rcases ih _ _ m h with h' | h'
          · exact mem_finishNmeaLine_nmeaBuffer h'
          · exact Or.inr h'
        · by_cases hlong : maxNmeaLineLength < (nl ++ [x]).length
          · simp only [procLoop, if_neg hnl, if_pos hlong] at h
            rcases ih _ _ m h with h' | h'
            · exact Or.inl h'
            · exact Or.inr h'
          · by_cases hsync : x = UBX_SYNC_CHAR_1 ∧ xs.head? = some UBX_SYNC_CHAR_2
            · simp only [procLoop, if_neg hnl, if_neg hlong, if_pos hsync] at h
              rcases ih _ _ m h with h' | h'
              · exact Or.inl h'
              · exact Or.inr h'
            · simp only [procLoop, if_neg hnl, if_neg hlong, if_neg hsync] at h
              rcases ih _ _ m h with h' | h'
              · exact Or.inl h'
              · exact Or.inr h'

/-- `_process_data` only ever adds checksum-valid frames to the UBX buffer. -/
theorem mem_ubxBuffer_processData {data : List Nat} {s : RState} {m : List Nat}
    (h : m ∈ (processData data s).ubxBuffer) :
    m ∈ s.ubxBuffer ∨ validateUbxChecksum m = true := by
  unfold processData at h
  rcases mem_ubxBuffer_procLoop _ _ _ m h with h' | h'
  · exact Or.inl h'
  · exact Or.inr h'

/-- `_process_data` only ever adds guarded records to the NMEA buffer. -/
theorem mem_nmeaBuffer_processData {data : List Nat} {s : RState} {m : List Nat}
    (h : m ∈ (processData data s).nmeaBuffer) :
    m ∈ s.nmeaBuffer ∨
      (m.head? = some 36 ∧ 5 < m.length ∧ validateNmeaChecksum m = true) := by
  unfold processData at h
  rcases mem_nmeaBuffer_procLoop _ _ _ m h with h' | h'
  · exact Or.inl h'
  · exact Or.inr h'

/-- Chunked processing only ever adds checksum-valid frames to the UBX
buffer. -/
theorem mem_ubxBuffer_processChunks :
    ∀ (chunks : List (List Nat)) (s : RState) m,
      m ∈ (processChunks chunks s).ubxBuffer →
      m ∈ s.ubxBuffer ∨ validateUbxChecksum m = true := by
  intro chunks
  induction chunks with
  | nil => exact fun s m h => Or.inl h
  | cons c cs ih =>
    intro s m h
    rcases ih (processData c s) m h with h' | h'
    · exact mem_ubxBuffer_processData h'
    · exact Or.inr h'

/-- The number of parts `split('*')` produces is one more than the number of
`'*'` characters in the line. -/
theorem splitStar_length (l : List Nat) :
    (splitStar l).length = l.count 42 + 1 := by
  induction l with
  | nil => rfl
  | cons b rest ih =>
    by_cases hb : b = 42
    · subst hb
      simp [splitStar, ih, List.count_cons]
    · rcases hsp : splitStar rest with _ | ⟨p, ps⟩
      · rw [hsp] at ih
        simp at ih
      · rw [hsp] at ih
        simp only [List.length_cons] at ih
        simp only [splitStar, if_neg hb, hsp, List.length_cons, List.count_cons]
        have hb' : ¬((b == 42) = true) := by simpa using hb
        rw [if_neg hb']
        omega

/-- Chunked processing only ever adds guarded records to the NMEA buffer. -/
theorem mem_nmeaBuffer_processChunks :
    ∀ (chunks : List (List Nat)) (s : RState) m,
      m ∈ (processChunks chunks s).nmeaBuffer →
      m ∈ s.nmeaBuffer ∨
        (m.head? = some 36 ∧ 5 < m.length ∧ validateNmeaChecksum m = true) := by
  intro chunks
  induction chunks with
  | nil => exact fun s m h => Or.inl h
  | cons c cs ih =>
    intro s m h
    rcases ih (processData c s) m h with h' | h'
    · exact mem_nmeaBuffer_processData h'
    · exact Or.inr h'

/-- C1: evaluation at the failing input. The eight-byte frame
`B5 62 00 00 00 00 00 00` is a complete, checksum-valid UBX frame and a single
`process()` call on it emits exactly that frame; but splitting it after the
first sync byte and feeding the two pieces to consecutive `process()` calls
emits nothing and leaves the parser back in its initial state — in
`SEARCHING`, a `0xB5` as the final byte of a chunk falls through to `i += 1`
and is discarded, so the claimed split-invariance fails at this split
position. -/
theorem split_sync_byte_loses_valid_frame :
    extractUbxMessage [181, 98, 0, 0, 0, 0, 0, 0] = some [181, 98, 0, 0, 0, 0, 0, 0] ∧
    (processChunks [[181, 98, 0, 0, 0, 0, 0, 0]] initState).ubxBuffer =
      [[181, 98, 0, 0, 0, 0, 0, 0]] ∧
    processChunks [[181], [98, 0, 0, 0, 0, 0, 0]] initState = initState := by
  decide

/-- C2: evaluation at the failing input. When a full frame whose trailing
checksum pair is wrong is staged together with a following valid frame,
`_process_data` emits nothing, keeps every byte from the bad sync onward in
the pending buffer (so the bytes are retained, not advanced past), and a
further `process()` call reproduces the same stuck state instead of
processing the valid frame behind it: `_extract_ubx_message` returns `None`
for a checksum failure and the caller treats `None` as an incomplete message
and stops the chunk. -/
theorem invalid_checksum_frame_retained_not_advanced :
    validateUbxChecksum [181, 98, 0, 0, 0, 0, 1, 1] = false ∧
    (processData
        ([181, 98, 0, 0, 0, 0, 1, 1] ++ [181, 98, 0, 0, 0, 0, 0, 0])
        initState).ubxBuffer = [] ∧
    (processData
        ([181, 98, 0, 0, 0, 0, 1, 1] ++ [181, 98, 0, 0, 0, 0, 0, 0])
        initState).ubxPartialBuffer =
      [181, 98, 0, 0, 0, 0, 1, 1] ++ [181, 98, 0, 0, 0, 0, 0, 0] ∧
    (processData []
        (processData
          ([181, 98, 0, 0, 0, 0, 1, 1] ++ [181, 98, 0, 0, 0, 0, 0, 0])
          initState)).ubxBuffer = [] ∧
    (processData []
        (processData
          ([181, 98, 0, 0, 0, 0, 1, 1] ++ [181, 98, 0, 0, 0, 0, 0, 0])
          initState)).ubxPartialBuffer =
      [181, 98, 0, 0, 0, 0, 1, 1] ++ [181, 98, 0, 0, 0, 0, 0, 0] := by
  decide

/-- C3: for every input and every chunking of it, every frame in the UBX
buffer is at least 8 bytes long, its last two bytes equal the running-sum
pair computed over the class, id, length and payload bytes (`message[2:-2]`),
and it passes `_validate_ubx_checksum`; no invalid frame is ever emitted. -/
theorem emitted_ubx_frames_checksum_valid (chunks : List (List Nat))
    (m : List Nat) (hm : m ∈ (processChunks chunks initState).ubxBuffer) :
    8 ≤ m.length ∧
    m.getD (m.length - 2) 0 = (ubxChecksum ((m.drop 2).dropLast.dropLast)).1 ∧
    m.getD (m.length - 1) 0 = (ubxChecksum ((m.drop 2).dropLast.dropLast)).2 ∧
    validateUbxChecksum m = true := by
  rcases mem_ubxBuffer_processChunks chunks initState m hm with h | h
  · simp [initState] at h
  · have hv := h
    by_cases h8 : m.length < 8
    · simp only [validateUbxChecksum, if_pos h8] at hv
      exact absurd hv (by simp)
    · simp only [validateUbxChecksum, if_neg h8, decide_eq_true_eq] at hv
      exact ⟨by omega, hv.1, hv.2, h⟩

/-- Witness for C3 on the concrete frame `B5 62 00 00 00 00 00 00`. -/
theorem emitted_ubx_frames_checksum_valid_witness :
    [181, 98, 0, 0, 0, 0, 0, 0] ∈
      (processChunks [[181, 98, 0, 0, 0, 0, 0, 0]] initState).ubxBuffer ∧
    validateUbxChecksum [181, 98, 0, 0, 0, 0, 0, 0] = true :=
  ⟨by decide,
   (emitted_ubx_frames_checksum_valid [[181, 98, 0, 0, 0, 0, 0, 0]]
      [181, 98, 0, 0, 0, 0, 0, 0] (by decide)).2.2.2⟩

/-- C5: for every input and every chunking of it, every record in the NMEA
buffer starts with `'$'`, is longer than 5 characters after stripping, and
passes the lenient `_validate_nmea_checksum`; no failing record is ever
emitted. -/
theorem emitted_nmea_records_valid (chunks : List (List Nat))
    (line : List Nat) (h : line ∈ (processChunks chunks initState).nmeaBuffer) :
    line.head? = some 36 ∧ 5 < line.length ∧ validateNmeaChecksum line = true := by
  rcases mem_nmeaBuffer_processChunks chunks initState line h with h' | h'
  · simp [initState] at h'
  · exact h'

/-- Witness for C5 on the concrete sentence `$AB*03`, whose body XOR is
`0x41 XOR 0x42 = 3`. -/
theorem emitted_nmea_records_valid_witness :
    [36, 65, 66, 42, 48, 51] ∈
      (processChunks [[36, 65, 66, 42, 48, 51, 10]] initState).nmeaBuffer ∧
    validateNmeaChecksum [36, 65, 66, 42, 48, 51] = true :=
  ⟨by decide,
   (emitted_nmea_records_valid [[36, 65, 66, 42, 48, 51, 10]]
      [36, 65, 66, 42, 48, 51] (by decide)).2.2⟩

/-- C10: a line containing two or more `'*'` characters always fails
`_validate_nmea_checksum`: `split('*')` then yields three or more parts, the
two-variable unpacking raises `ValueError`, and the handler returns `False`.
The no-asterisk acceptance therefore applies only to lines with zero `'*'`. -/
theorem nmea_checksum_multiple_asterisks_rejected (line : List Nat)
    (h : 2 ≤ line.count 42) : validateNmeaChecksum line = false := by
  have hmem : (42 : Nat) ∈ line := by
    have : 0 < line.count 42 := by omega
    exact List.count_pos_iff.mp this
  have h3 : 3 ≤ (splitStar line).length := by
    rw [splitStar_length]; omega
  unfold validateNmeaChecksum
  rw [if_neg (by simpa using hmem)]
  cases hsp : splitStar line with
  | nil => rfl
  | cons p₁ t₁ =>
    rw [hsp] at h3
    cases t₁ with
    | nil => rfl
    | cons p₂ t₂ =>
      cases t₂ with
      | nil => simp at h3
      | cons p₃ t₃ => rfl

/-- Witness for C10 on `$AB*03*00`: the body before the first `'*'` XORs to
3, matching the hex field after it, yet the record is rejected. -/
theorem nmea_checksum_multiple_asterisks_rejected_witness :
    2 ≤ List.count 42 [36, 65, 66, 42, 48, 51, 42, 48, 48] ∧
    validateNmeaChecksum [36, 65, 66, 42, 48, 51, 42, 48, 48] = false :=
  ⟨by decide,
   nmea_checksum_multiple_asterisks_rejected
     [36, 65, 66, 42, 48, 51, 42, 48, 48] (by decide)⟩

/-- `processData` unfolded: prepend the pending buffer and run the loop with
the canonical fuel. -/
theorem processData_eq (data : List Nat) (s : RState) :
    processData data s =
      procLoop (2 * (s.ubxPartialBuffer ++ data).length + 2)
        (s.ubxPartialBuffer ++ data) { s with ubxPartialBuffer := [] } := rfl

/-- C4: when `SEARCHING` meets the sync pair followed by a header whose
little-endian length field exceeds `max_ubx_message_length`, one loop
iteration consumes exactly the two sync bytes, emits nothing, stays in
`SEARCHING`, and bumps the consecutive-error counter — resetting it to zero
when it reaches `max_ubx_errors_before_resync`; the same equation holds for a
whole `process()` call, and five consecutive such events drive the counter
`1, 2, 3, 4` and then back to `0` with no frame ever emitted. -/
theorem oversized_length_skips_sync_and_counts
    (cl d lo hi : Nat) (r : List Nat) (s : RState) (f : Nat)
    (hmode : s.mode = .searching) (hpart : s.ubxPartialBuffer = [])
    (hbig : maxUbxMessageLength < Nat.lor lo (Nat.shiftLeft hi 8)) :
    (procLoop (f + 1) (181 :: 98 :: cl :: d :: lo :: hi :: r) s =
      procLoop f (cl :: d :: lo :: hi :: r)
        { s with ubxErrorCount :=
            if maxUbxErrorsBeforeResync ≤ s.ubxErrorCount + 1 then 0
            else s.ubxErrorCount + 1 }) ∧
    (processData (181 :: 98 :: cl :: d :: lo :: hi :: r) s =
      processData (cl :: d :: lo :: hi :: r)
        { s with ubxErrorCount :=
            if maxUbxErrorsBeforeResync ≤ s.ubxErrorCount + 1 then 0
            else s.ubxErrorCount + 1 }) ∧
    (processChunks (List.replicate 4 [181, 98, 0, 0, 0, 255]) initState).ubxErrorCount = 4 ∧
    (processChunks (List.replicate 5 [181, 98, 0, 0, 0, 255]) initState).ubxErrorCount = 0 ∧
    (processChunks (List.replicate 5 [181, 98, 0, 0, 0, 255]) initState).ubxBuffer = [] := by
  obtain ⟨mode, nl, up, ec, nb, ub⟩ := s
  simp only at hmode hpart
  subst hmode
  subst hpart
  have hstep : ∀ g, procLoop (g + 1) (181 :: 98 :: cl :: d :: lo :: hi :: r)
      ⟨.searching, nl, [], ec, nb, ub⟩ =
      procLoop g (cl :: d :: lo :: hi :: r)
        ⟨.searching, nl, [],
          if maxUbxErrorsBeforeResync ≤ ec + 1 then 0 else ec + 1, nb, ub⟩ := by
    intro g
    simp only [procLoop]
    rw [if_pos ⟨rfl, rfl⟩]
    rw [if_pos ⟨by simp, by
      simpa [List.getD_cons_succ, List.getD_cons_zero] using hbig⟩]
    rfl
  refine ⟨hstep f, ?_, by decide, by decide, by decide⟩
  rw [processData_eq, processData_eq]
  simp only [List.nil_append]
  calc procLoop (2 * (181 :: 98 :: cl :: d :: lo :: hi :: r).length + 2)
          (181 :: 98 :: cl :: d :: lo :: hi :: r) ⟨.searching, nl, [], ec, nb, ub⟩
      = procLoop (2 * (181 :: 98 :: cl :: d :: lo :: hi :: r).length + 1)
          (cl :: d :: lo :: hi :: r)
          ⟨.searching, nl, [],
            if maxUbxErrorsBeforeResync ≤ ec + 1 then 0 else ec + 1, nb, ub⟩ :=
        hstep _
    _ = procLoop (2 * (cl :: d :: lo :: hi :: r).length + 2)
          (cl :: d :: lo :: hi :: r)
          ⟨.searching, nl, [],
            if maxUbxErrorsBeforeResync ≤ ec + 1 then 0 else ec + 1, nb, ub⟩ :=
        procLoop_fuel_stable _ _ _ _
          (by simp only [List.length_cons, modeRank]; omega)
          (by simp only [List.length_cons, modeRank]; omega)

/-- Witness for C4 with header bytes `lo = 0`, `hi = 255` (declared length
65280) fed five times from the initial state. -/
theorem oversized_length_skips_sync_and_counts_witness :
    initState.mode = Mode.searching ∧
    maxUbxMessageLength < Nat.lor 0 (Nat.shiftLeft 255 8) ∧
    (processChunks (List.replicate 5 [181, 98, 0, 0, 0, 255]) initState).ubxErrorCount = 0 :=
  ⟨rfl, by decide,
   (oversized_length_skips_sync_and_counts 0 0 0 255 [] initState 0 rfl rfl
      (by decide)).2.2.2.1⟩

/-- C6: a drain returns the entire accumulated NMEA and UBX sequences in
arrival order, clears both buffers, and the base64 list of
`get_buffered_data_with_raw_ubx` is the element-wise base64 encoding of the
raw list it returns alongside (computed from the same copy, without
re-parsing); `get_buffered_data` returns the same NMEA lines and the same
base64 encodings and clears the same buffers. -/
theorem drain_returns_all_and_clears (s : RState) :
    (getBufferedDataWithRawUbx s).1.1 = s.nmeaBuffer ∧
    (getBufferedDataWithRawUbx s).1.2.2 = s.ubxBuffer ∧
    (getBufferedDataWithRawUbx s).1.2.1 =
      ((getBufferedDataWithRawUbx s).1.2.2).map b64Encode ∧
    (∀ j : Nat,
      (getBufferedDataWithRawUbx s).1.2.1[j]? =
        ((getBufferedDataWithRawUbx s).1.2.2[j]?).map b64Encode) ∧
    (getBufferedDataWithRawUbx s).2.nmeaBuffer = [] ∧
    (getBufferedDataWithRawUbx s).2.ubxBuffer = [] ∧
    (getBufferedData s).1.1 = s.nmeaBuffer ∧
    (getBufferedData s).1.2 = s.ubxBuffer.map b64Encode ∧
    (getBufferedData s).2 = (getBufferedDataWithRawUbx s).2 := by
  refine ⟨rfl, rfl, rfl, ?_, rfl, rfl, rfl, rfl, rfl⟩
  intro j
  simp [getBufferedDataWithRawUbx]

/-- After the archival tail, either the source entry is untouched, or the run
completed: the source is gone, both finals exist, and all five events were
recorded in order. -/
theorem archiveTail_src_cases (sha : Nat → Nat) (env : ArchiveEnv)
    (fs : FileState) (c : Nat) :
    (archiveTail sha env fs c).1.src = fs.src ∨
    ((archiveTail sha env fs c).1.src = none ∧
     (archiveTail sha env fs c).1.zstFinal.isSome = true ∧
     (archiveTail sha env fs c).1.shaFinal.isSome = true ∧
     (archiveTail sha env fs c).2 =
       [.compressed, .wroteSha, .renamedZst, .renamedSha, .removedSrc]) := by
  unfold archiveTail
  split_ifs <;> simp

/-- A failure of any step of the archival tail leaves the source entry
untouched. -/
theorem archiveTail_step_failure_keeps_src (sha : Nat → Nat) (env : ArchiveEnv)
    (fs : FileState) (c : Nat)
    (h : env.shaOk = false ∨ env.writeShaOk = false ∨
         env.renameZstOk = false ∨ env.renameShaOk = false) :
    (archiveTail sha env fs c).1.src = fs.src := by
  unfold archiveTail
  split_ifs <;> simp_all

/-- The removal event is recorded only by the complete run of the tail. -/
theorem archiveTail_removed_means_full_run (sha : Nat → Nat) (env : ArchiveEnv)
    (fs : FileState) (c : Nat)
    (h : ArchiveEvent.removedSrc ∈ (archiveTail sha env fs c).2) :
    (archiveTail sha env fs c).2 =
      [.compressed, .wroteSha, .renamedZst, .renamedSha, .removedSrc] := by
  unfold archiveTail at h ⊢
  split_ifs at h ⊢ <;> simp_all

/-- `_compress_and_checksum` removes the source entry only when both final
artifacts are in place afterwards. -/
theorem cac_src_none (compress sha : Nat → Nat) (env : ArchiveEnv)
    (fs : FileState)
    (h : (compressAndChecksum compress sha env fs).1.src = none) :
    fs.src = none ∨
      ((compressAndChecksum compress sha env fs).1.zstFinal.isSome = true ∧
       (compressAndChecksum compress sha env fs).1.shaFinal.isSome = true) := by
  unfold compressAndChecksum at h ⊢
  split_ifs at h ⊢
  · exact Or.inl h
  · exact Or.inl h
  · exact Or.inl h
  · exact Or.inl h
  · rcases archiveTail_src_cases sha env fs (compress (fs.src.getD 0)) with hl | hr
    · rw [hl] at h
      exact Or.inl h
    · exact Or.inr ⟨hr.2.1, hr.2.2.1⟩

/-- A missing `zstd` makes `_compress_and_checksum` a no-op. -/
theorem cac_zstd_missing (compress sha : Nat → Nat) (env : ArchiveEnv)
    (fs : FileState) (h : env.zstdAvailable = false) :
    compressAndChecksum compress sha env fs = (fs, []) := by
  unfold compressAndChecksum
  split_ifs with h1 h2 h3 <;> simp_all

/-- Any failing step before the removal leaves the source entry of
`_compress_and_checksum` untouched. -/
theorem cac_step_failure_keeps_src (compress sha : Nat → Nat)
    (env : ArchiveEnv) (fs : FileState)
    (h : env.compressOk = false ∨ env.shaOk = false ∨ env.writeShaOk = false ∨
         env.renameZstOk = false ∨ env.renameShaOk = false) :
    (compressAndChecksum compress sha env fs).1.src = fs.src := by
  unfold compressAndChecksum
  split_ifs with h1 h2 h3 h4
  · rfl
  · rfl
  · rfl
  · rfl
  · rcases h with h | h
    · simp_all
    · exact archiveTail_step_failure_keeps_src sha env fs _ (by tauto)

/-- `_compress_and_checksum` records the removal event only on a complete
run. -/
theorem cac_removed_means_full_run (compress sha : Nat → Nat)
    (env : ArchiveEnv) (fs : FileState)
    (h : ArchiveEvent.removedSrc ∈ (compressAndChecksum compress sha env fs).2) :
    (compressAndChecksum compress sha env fs).2 =
      [.compressed, .wroteSha, .renamedZst, .renamedSha, .removedSrc] := by
  unfold compressAndChecksum at h ⊢
  split_ifs at h ⊢
  · simp at h
  · simp at h
  · simp at h
  · simp at h
  · exact archiveTail_removed_means_full_run sha env fs _ h

/-- `atomic_compress_and_checksum` removes the source entry only when both
final artifacts are in place afterwards. -/
theorem acac_src_none (compress sha : Nat → Nat) (env : ArchiveEnv)
    (fs : FileState)
    (h : (atomicCompressAndChecksum compress sha env fs).1.src = none) :
    fs.src = none ∨
      ((atomicCompressAndChecksum compress sha env fs).1.zstFinal.isSome = true ∧
       (atomicCompressAndChecksum compress sha env fs).1.shaFinal.isSome = true) := by
  unfold atomicCompressAndChecksum at h ⊢
  split_ifs at h ⊢
  · exact Or.inl h
  · exact Or.inl h
  · exact Or.inl h
  · exact Or.inl h
  · rcases archiveTail_src_cases sha env fs (compress (fs.src.getD 0)) with hl | hr
    · rw [hl] at h
      exact Or.inl h
    · exact Or.inr ⟨hr.2.1, hr.2.2.1⟩

/-- A missing `zstd` makes `atomic_compress_and_checksum` a no-op. -/
theorem acac_zstd_missing (compress sha : Nat → Nat) (env : ArchiveEnv)
    (fs : FileState) (h : env.zstdAvailable = false) :
    atomicCompressAndChecksum compress sha env fs = (fs, []) := by
  unfold atomicCompressAndChecksum
  split_ifs with h1 h2 h3 <;> simp_all

/-- Any failing step before the removal leaves the source entry of
`atomic_compress_and_checksum` untouched. -/
theorem acac_step_failure_keeps_src (compress sha : Nat → Nat)
    (env : ArchiveEnv) (fs : FileState)
    (h : env.compressOk = false ∨ env.shaOk = false ∨ env.writeShaOk = false ∨
         env.renameZstOk = false ∨ env.renameShaOk = false) :
    (atomicCompressAndChecksum compress sha env fs).1.src = fs.src := by
  unfold atomicCompressAndChecksum
  split_ifs with h1 h2 h3 h4
  · rfl
  · rfl
  · rfl
  · rfl
  · rcases h with h | h
    · simp_all
    · exact archiveTail_step_failure_keeps_src sha env fs _ (by tauto)

/-- `atomic_compress_and_checksum` records the removal event only on a
complete run. -/
theorem acac_removed_means_full_run (compress sha : Nat → Nat)
    (env : ArchiveEnv) (fs : FileState)
    (h : ArchiveEvent.removedSrc ∈
      (atomicCompressAndChecksum compress sha env fs).2) :
    (atomicCompressAndChecksum compress sha env fs).2 =
      [.compressed, .wroteSha, .renamedZst, .renamedSha, .removedSrc] := by
  unfold atomicCompressAndChecksum at h ⊢
  split_ifs at h ⊢
  · simp at h
  · simp at h
  · simp at h
  · simp at h
  · exact archiveTail_removed_means_full_run sha env fs _ h

/-- C7: in every execution of either archival routine — under every
combination of step outcomes — the uncompressed source is gone afterwards
only if both final artifacts exist afterwards; a missing `zstd` leaves
everything untouched; any failure among compression, checksumming, sidecar
writing and the two renames leaves the source exactly as it was; and whenever
the removal event was recorded, both rename events were recorded before it. -/
theorem archival_deletes_source_only_after_finals
    (compress sha : Nat → Nat) (env : ArchiveEnv) (fs : FileState) :
    ((compressAndChecksum compress sha env fs).1.src = none →
      fs.src = none ∨
        ((compressAndChecksum compress sha env fs).1.zstFinal.isSome = true ∧
         (compressAndChecksum compress sha env fs).1.shaFinal.isSome = true)) ∧
    (env.zstdAvailable = false →
      compressAndChecksum compress sha env fs = (fs, [])) ∧
    ((env.compressOk = false ∨ env.shaOk = false ∨ env.writeShaOk = false ∨
        env.renameZstOk = false ∨ env.renameShaOk = false) →
      (compressAndChecksum compress sha env fs).1.src = fs.src) ∧
    (ArchiveEvent.removedSrc ∈ (compressAndChecksum compress sha env fs).2 →
      (compressAndChecksum compress sha env fs).2 =
        [.compressed, .wroteSha, .renamedZst, .renamedSha, .removedSrc]) ∧
    ((atomicCompressAndChecksum compress sha env fs).1.src = none →
      fs.src = none ∨
        ((atomicCompressAndChecksum compress sha env fs).1.zstFinal.isSome = true ∧
         (atomicCompressAndChecksum compress sha env fs).1.shaFinal.isSome = true)) ∧
    (env.zstdAvailable = false →
      atomicCompressAndChecksum compress sha env fs = (fs, [])) ∧
    ((env.compressOk = false ∨ env.shaOk = false ∨ env.writeShaOk = false ∨
        env.renameZstOk = false ∨ env.renameShaOk = false) →
      (atomicCompressAndChecksum compress sha env fs).1.src = fs.src) ∧
    (ArchiveEvent.removedSrc ∈ (atomicCompressAndChecksum compress sha env fs).2 →
      (atomicCompressAndChecksum compress sha env fs).2 =
        [.compressed, .wroteSha, .renamedZst, .renamedSha, .removedSrc]) :=
  ⟨cac_src_none compress sha env fs, cac_zstd_missing compress sha env fs,
   cac_step_failure_keeps_src compress sha env fs,
   cac_removed_means_full_run compress sha env fs,
   acac_src_none compress sha env fs, acac_zstd_missing compress sha env fs,
   acac_step_failure_keeps_src compress sha env fs,
   acac_removed_means_full_run compress sha env fs⟩

/-- Witness for C7: with all steps succeeding on a present source, the source
is removed and both finals exist. -/
theorem archival_deletes_source_only_after_finals_witness :
    (compressAndChecksum Nat.succ (fun n => n + 2)
        ⟨true, true, true, true, true, true, true⟩
        ⟨some 5, none, none, none, none⟩).1.src = none ∧
    ((⟨some 5, none, none, none, none⟩ : FileState).src = none ∨
      ((compressAndChecksum Nat.succ (fun n => n + 2)
          ⟨true, true, true, true, true, true, true⟩
          ⟨some 5, none, none, none, none⟩).1.zstFinal.isSome = true ∧
       (compressAndChecksum Nat.succ (fun n => n + 2)
          ⟨true, true, true, true, true, true, true⟩
          ⟨some 5, none, none, none, none⟩).1.shaFinal.isSome = true)) :=
  ⟨by decide,
   (archival_deletes_source_only_after_finals Nat.succ (fun n => n + 2)
      ⟨true, true, true, true, true, true, true⟩
      ⟨some 5, none, none, none, none⟩).1 (by decide)⟩

/-- C8: when both final artifacts of an hour already exist, either archival
routine returns immediately — the file system is unchanged, no step event
(in particular no compression) is recorded, and the source, if still present,
is untouched; hence a second run after any first run that produced the finals
changes nothing, and running the routine twice equals running it once. -/
theorem archival_idempotent_when_finals_exist
    (compress sha : Nat → Nat) (env env₂ : ArchiveEnv) (fs : FileState)
    (h₁ : fs.zstFinal.isSome = true) (h₂ : fs.shaFinal.isSome = true) :
    compressAndChecksum compress sha env fs = (fs, []) ∧
    atomicCompressAndChecksum compress sha env fs = (fs, []) ∧
    compressAndChecksum compress sha env₂
        (compressAndChecksum compress sha env fs).1 =
      ((compressAndChecksum compress sha env fs).1, []) ∧
    atomicCompressAndChecksum compress sha env₂
        (atomicCompressAndChecksum compress sha env fs).1 =
      ((atomicCompressAndChecksum compress sha env fs).1, []) := by
  have e₁ : compressAndChecksum compress sha env fs = (fs, []) := by
    unfold compressAndChecksum
    rw [if_pos ⟨h₁, h₂⟩]
  have e₂ : atomicCompressAndChecksum compress sha env fs = (fs, []) := by
    unfold atomicCompressAndChecksum
    rw [if_pos ⟨h₁, h₂⟩]
  refine ⟨e₁, e₂, ?_, ?_⟩
  · rw [e₁]
    unfold compressAndChecksum
    rw [if_pos ⟨h₁, h₂⟩]
  · rw [e₂]
    unfold atomicCompressAndChecksum
    rw [if_pos ⟨h₁, h₂⟩]

/-- Witness for C8: an hour whose `.zst` and `.zst.sha256` exist, with the
uncompressed source still present, is left exactly as it is. -/
theorem archival_idempotent_when_finals_exist_witness :
    (⟨some 1, none, some 2, none, some 3⟩ : FileState).zstFinal.isSome = true ∧
    compressAndChecksum Nat.succ (fun n => n + 2)
        ⟨true, true, true, true, true, true, true⟩
        ⟨some 1, none, some 2, none, some 3⟩ =
      (⟨some 1, none, some 2, none, some 3⟩, []) :=
  ⟨by decide,
   (archival_idempotent_when_finals_exist Nat.succ (fun n => n + 2)
      ⟨true, true, true, true, true, true, true⟩
      ⟨true, true, true, true, true, true, true⟩
      ⟨some 1, none, some 2, none, some 3⟩ (by decide) (by decide)).1⟩

/-- The batch numbers produced from any starting counter are the consecutive
integers following it, regardless of POST outcomes. -/
theorem batchSeqNums_eq_range (outcomes : List Bool) :
    ∀ st : SenderState,
      batchSeqNums outcomes st =
        List.range' (st.sequenceNumber + 1) outcomes.length := by
  induction outcomes with
  | nil => intro st; rfl
  | cons ok rest ih =>
    intro st
    simp [batchSeqNums, sendBatch, ih, List.range'_succ]

/-- C9: from a fresh process (`sequence_number = 0` at construction), the
batches produced by consecutive `send_batch` calls carry sequence numbers
`1, 2, 3, …` — starting at 1 and increasing by exactly 1 per call — no matter
which sends succeed or fail; nothing is persisted, so a restart (a fresh
`initSender`) starts at 1 again. -/
theorem sequence_numbers_start_at_one_and_increment (outcomes : List Bool) :
    batchSeqNums outcomes initSender = List.range' 1 outcomes.length ∧
    initSender.sequenceNumber = 0 ∧
    (∀ (st : SenderState) (ok : Bool),
      (sendBatch st ok).1.1 = st.sequenceNumber + 1 ∧
      (sendBatch st ok).2.sequenceNumber = st.sequenceNumber + 1) :=
  ⟨batchSeqNums_eq_range outcomes initSender, rfl, fun _ _ => ⟨rfl, rfl⟩⟩

end Stratonode
